import Mathlib

/-!
Shallow embedding of the Cognigy OpenAPI client's pagination core
(`src/openapi_client.py`) and its auth-scheme entry points.

The embedding follows the Python source line by line:
  * JSON values are modelled by the inductive `Json`; Python dictionaries
    become insertion-ordered association lists whose assignment semantics
    (`d[k] = v` updates in place, appending new keys at the end) are
    captured by `dictSet`.
  * Python truthiness of JSON values (the `while json_content.get("nextCursor")`
    condition) is `Json.truthy`.
  * The network is a pure strategy `server : Nat -> Response` giving the
    response to the n-th continuation request; the code's behaviour depends
    only on the sequence of responses it receives, so this is fully general.
  * `while` is modelled by fuel (`pagLoop`); exhausting the fuel yields the
    marker `PagResult.outOfFuel`, distinct from every result the Python
    function can return, so divergence is observable.
  * Raised exceptions become `PagResult.error` carrying the formatted
    message the Python code would raise.
  * The in-place mutation of the caller's `params` dictionary is made
    observable by returning the final contents of the loop's dictionary
    (`PagOutput.finalParams`) and by `callerParamsAfter`, which reproduces
    the aliasing of `params = params or {}`: a non-empty caller dictionary
    is the very object the loop mutates, while `None` or `{}` makes the
    loop work on a fresh dictionary invisible to the caller.
-/

namespace Cognigy

/-- JSON values as decoded by `response.json()`. -/
inductive Json where
  | null : Json
  | bool : Bool → Json
  | num : Int → Json
  | str : String → Json
  | arr : List Json → Json
  | obj : List (String × Json) → Json

mutual

/-- Structural equality of JSON values, Python's `==` on decoded JSON. -/
def Json.beq : Json → Json → Bool
  | .null, .null => true
  | .bool a, .bool b => a == b
  | .num a, .num b => a == b
  | .str a, .str b => a == b
  | .arr a, .arr b => Json.beqArr a b
  | .obj a, .obj b => Json.beqObj a b
  | _, _ => false

/-- Structural equality of JSON arrays, elementwise. -/
def Json.beqArr : List Json → List Json → Bool
  | [], [] => true
  | x :: xs, y :: ys => Json.beq x y && Json.beqArr xs ys
  | _, _ => false

/-- Structural equality of JSON object field lists, in order. -/
def Json.beqObj : List (String × Json) → List (String × Json) → Bool
  | [], [] => true
  | (k, v) :: xs, (l, w) :: ys => k == l && Json.beq v w && Json.beqObj xs ys
  | _, _ => false

end

instance : BEq Json := ⟨Json.beq⟩

/-- Python dictionaries with string keys and JSON values, insertion ordered. -/
abbrev Dict := List (String × Json)

/-- `d.get(key)` / key lookup on an insertion-ordered dictionary. -/
def dictGet : Dict → String → Option Json
  | [], _ => none
  | (k, v) :: rest, key => if k = key then some v else dictGet rest key

/-- `d[key] = val`: update in place if the key exists, else append at the end. -/
def dictSet : Dict → String → Json → Dict
  | [], key, val => [(key, val)]
  | (k, v) :: rest, key, val =>
      if k = key then (k, val) :: rest else (k, v) :: dictSet rest key val

/-- `{**a, **b}`: start from `a`, then assign every binding of `b` in order. -/
def dictMerge (a b : Dict) : Dict :=
  b.foldl (fun acc kv => dictSet acc kv.1 kv.2) a

/-- Python truthiness of a JSON value (`bool(x)` for decoded JSON). -/
def Json.truthy : Json → Bool
  | .null => false
  | .bool b => b
  | .num n => n != 0
  | .str s => s != ""
  | .arr xs => !xs.isEmpty
  | .obj fs => !fs.isEmpty

/-- `j.get(key)`: only dictionaries have `.get`; the embedding only ever
applies it to objects, mirroring the reachable Python code. -/
def Json.get : Json → String → Option Json
  | .obj fs, k => dictGet fs k
  | _, _ => none

/-- The Python `in` operator, `key in j`, for decoded JSON values:
membership for dictionaries, element test for lists, substring test for
strings, `TypeError` otherwise. -/
def pyContains (j : Json) (key : String) : Except String Bool :=
  match j with
  | .obj fs => .ok (dictGet fs key).isSome
  | .arr xs => .ok (xs.contains (.str key))
  | .str s => .ok (decide (key.data <:+: s.data))
  | _ => .error "TypeError: argument is not iterable"

/-- Subscription `j[key]` with a string key: lookup on dictionaries
(`KeyError` when absent), `TypeError` on every other JSON value. -/
def pyIndex (j : Json) (key : String) : Except String Json :=
  match j with
  | .obj fs =>
      match dictGet fs key with
      | some v => .ok v
      | none => .error ("KeyError: " ++ key)
  | _ => .error "TypeError: indices must be integers"

/-- HTTP verbs used by the client. -/
inductive Verb where
  | GET | POST | PUT | PATCH | DELETE

/-- Authentication material attached to a request (`HTTPBasicAuth`). -/
inductive Auth where
  | basic (username password : String)

/-- A decoded HTTP response: status code, raw body text, decoded JSON body. -/
structure Response where
  status : Nat
  text : String
  body : Json

/-- An outgoing HTTP request as assembled by the client: verb, URL, the
query-parameter dictionary at call time, headers, auth and JSON payload. -/
structure Request where
  verb : Verb
  url : String
  params : Dict
  headers : List (String × String)
  auth : Option Auth
  payload : Option Json

/-- Outcome of one `handle_pagination` run: a returned JSON value, a raised
exception message, or fuel exhaustion (the Python loop still running). -/
inductive PagResult where
  | ok (value : Json)
  | error (msg : String)
  | outOfFuel

/-- Observable output of a `handle_pagination` run: its result, the
continuation requests it issued in order, and the final contents of the
`params` dictionary the loop worked on. -/
structure PagOutput where
  result : PagResult
  requests : List Request
  finalParams : Dict

/-- The `while json_content.get("nextCursor"):` loop of `handle_pagination`
(src/openapi_client.py lines 68-89).  State: remaining fuel, the `params`
dictionary, the fields of the first page's object `json_content` (updated in
place by the Python code), the `json_items` accumulator, and the index `n` of
the next continuation request (the response to it is `server n`). -/
def pagLoop (server : Nat → Response) (base_url endpoint : String)
    (auth : Option Auth) (headers : List (String × String)) :
    Nat → Dict → Dict → Json → Nat → PagOutput
  | 0, params, _, _, _ => ⟨.outOfFuel, [], params⟩
  | fuel + 1, params, jc, ji, n =>
      match dictGet jc "nextCursor" with
      | none => ⟨.ok (.obj jc), [], params⟩
      | some cur =>
          if cur.truthy then
            let params' := dictSet params "next" cur
            let url := base_url ++ "/" ++ endpoint
            let req : Request := ⟨.GET, url, params', headers, auth, none⟩
            let resp := server n
            if resp.status ≠ 200 then
              ⟨.error ("Error retrieving data from " ++ url ++ ". Error: " ++ resp.text),
                [req], params'⟩
            else
              match ji with
              | .arr items =>
                  match pyIndex resp.body "items" with
                  | .error e => ⟨.error e, [req], params'⟩
                  | .ok newItems =>
                      match newItems with
                      | .arr newList =>
                          let ji' := Json.arr (items ++ newList)
                          let jc' := dictSet (dictSet jc "items" ji') "nextCursor"
                            ((resp.body.get "nextCursor").getD .null)
                          let rest := pagLoop server base_url endpoint auth headers
                            fuel params' jc' ji' (n + 1)
                          ⟨rest.result, req :: rest.requests, rest.finalParams⟩
                      | _ => ⟨.error "TypeError: extend argument is not a list", [req], params'⟩
              | _ => ⟨.error "AttributeError: object has no attribute extend", [req], params'⟩
          else ⟨.ok (.obj jc), [], params⟩

/-- `handle_pagination` (src/openapi_client.py lines 45-89).  `server` yields
the responses to continuation requests, `fuel` bounds the loop unrolling,
`response` is the already-issued initial response, and the remaining
arguments mirror the Python signature (with `params` optional, as in Python
where it defaults to `None`). -/
def handle_pagination (server : Nat → Response) (fuel : Nat) (response : Response)
    (base_url endpoint : String) (auth : Option Auth)
    (headers : List (String × String)) (params : Option Dict) : PagOutput :=
  if response.status ≠ 200 then
    ⟨.error ("Error retrieving data from " ++ base_url ++ "/" ++ endpoint ++
        ". Error: " ++ response.text), [], params.getD []⟩
  else
    match pyContains response.body "items" with
    | .error e => ⟨.error e, [], params.getD []⟩
    | .ok false => ⟨.ok response.body, [], params.getD []⟩
    | .ok true =>
        match response.body with
        | .obj jc =>
            match pyIndex response.body "items" with
            | .ok ji => pagLoop server base_url endpoint auth headers fuel (params.getD []) jc ji 0
            | .error e => ⟨.error e, [], params.getD []⟩
        | _ => ⟨.error "TypeError: indices must be integers", [], params.getD []⟩

/-- The caller-visible contents of the `params` dictionary after a run.
`params = params or {}` (line 69) rebinds falsy values (`None`, `{}`) to a
fresh dictionary, so only a non-empty caller dictionary is aliased by — and
mutated through — the loop's dictionary. -/
def callerParamsAfter (params : Option Dict) (out : PagOutput) : Option Dict :=
  match params with
  | none => none
  | some d => if d.isEmpty then some d else some out.finalParams

/-- One full entry-point run: the initial request the wrapper assembled and
the output of the `handle_pagination` call it ends with. -/
structure RunOutput where
  initialRequest : Request
  out : PagOutput

/-- `get_request_basic_auth` (lines 91-120): GET with `HTTPBasicAuth`, then
`handle_pagination`.  `server0` is the response to the initial request. -/
def get_request_basic_auth (server0 : Response) (server : Nat → Response)
    (fuel : Nat) (base_url endpoint username password : String)
    (params : Dict) : RunOutput :=
  let headers := [("Accept", "application/json")]
  let url := base_url ++ "/" ++ endpoint
  let auth := some (Auth.basic username password)
  ⟨⟨.GET, url, params, headers, auth, none⟩,
    handle_pagination server fuel server0 base_url endpoint auth headers (some params)⟩

/-- `put_request_basic_auth` (lines 315-347): PUT with `HTTPBasicAuth` and a
JSON payload, then `handle_pagination` on the PUT response. -/
def put_request_basic_auth (server0 : Response) (server : Nat → Response)
    (fuel : Nat) (base_url endpoint username password : String)
    (json_payload : Json) (params : Dict) : RunOutput :=
  let headers := [("Accept", "application/json"), ("Content-Type", "application/json")]
  let url := base_url ++ "/" ++ endpoint
  let auth := some (Auth.basic username password)
  ⟨⟨.PUT, url, params, headers, auth, some json_payload⟩,
    handle_pagination server fuel server0 base_url endpoint auth headers (some params)⟩

/-- `get_requests_api_key` (lines 157-179): GET with an `X-API-Key` header
against `{base_url}/v2.0/{endpoint}`, then `handle_pagination`. -/
def get_requests_api_key (server0 : Response) (server : Nat → Response)
    (fuel : Nat) (base_url endpoint api_key : String) (params : Dict) : RunOutput :=
  let headers := [("Accept", "application/json"), ("X-API-Key", api_key)]
  let url := base_url ++ "/v2.0/" ++ endpoint
  ⟨⟨.GET, url, params, headers, none, none⟩,
    handle_pagination server fuel server0 (base_url ++ "/v2.0") endpoint none headers
      (some params)⟩

/-- `patch_requests_api_key` (lines 386-421): PATCH with an `X-API-Key`
header and payload; `params` becomes `{ignoreOwnership: true, **params}`. -/
def patch_requests_api_key (server0 : Response) (server : Nat → Response)
    (fuel : Nat) (base_url endpoint api_key : String) (json_payload : Json)
    (params : Dict) : RunOutput :=
  let headers := [("Accept", "application/json"), ("Content-Type", "application/json"),
    ("X-API-Key", api_key)]
  let params' := dictMerge [("ignoreOwnership", Json.str "true")] params
  let url := base_url ++ "/v2.0/" ++ endpoint
  ⟨⟨.PATCH, url, params', headers, none, some json_payload⟩,
    handle_pagination server fuel server0 (base_url ++ "/v2.0") endpoint none headers
      (some params')⟩



/-- C8: a successful (status 200) initial response whose decoded body has no
"items" key is returned verbatim, and zero continuation requests are issued. -/
theorem C8_no_items_verbatim (server : Nat → Response) (fuel : Nat)
    (resp : Response) (base_url endpoint : String) (auth : Option Auth)
    (headers : List (String × String)) (params : Option Dict)
    (h200 : resp.status = 200) (hno : pyContains resp.body "items" = .ok false) :
    handle_pagination server fuel resp base_url endpoint auth headers params =
      ⟨.ok resp.body, [], params.getD []⟩ := by
  unfold handle_pagination
  simp [h200, hno]

/-- Key lookup after a dictionary assignment. -/
theorem dictGet_dictSet (d : Dict) (k : String) (v : Json) (l : String) :
    dictGet (dictSet d k v) l = if k = l then some v else dictGet d l := by
  induction d with
  | nil => simp [dictGet, dictSet]
  | cons kv rest ih =>
      obtain ⟨a, w⟩ := kv
      by_cases hak : a = k
      · subst hak
        by_cases hal : a = l <;> simp [dictGet, dictSet, hal]
      · by_cases hal : a = l
        · subst hal
          simp [dictGet, dictSet, hak, ih, Ne.symm hak]
        · simp [dictGet, dictSet, hak, hal, ih]

/-- Witness for C8 at a concrete non-paginated body. -/
theorem C8_no_items_verbatim_witness :
    handle_pagination (fun _ => ⟨200, "", .null⟩) 5 ⟨200, "ok", .obj [("name", .str "x")]⟩
      "b" "e" none [] none = ⟨.ok (.obj [("name", .str "x")]), [], []⟩ :=
  C8_no_items_verbatim _ 5 _ "b" "e" none [] none rfl rfl



/-- The scenario refuting C2: the caller's original parameters are re-sent on
the continuation request, so its parameter set is not `{next: cursor}`. -/
def C2run : PagOutput :=
  handle_pagination (fun _ => ⟨200, "", .obj [("items", .arr [])]⟩) 10
    ⟨200, "", .obj [("items", .arr []), ("nextCursor", .str "c1")]⟩
    "b" "e" none [] (some [("limit", .str "100")])

/-- C2 fails on the code: with caller params {limit: "100"} and first-page
cursor "c1", the single continuation request carries both `limit` and `next`
— the parameter set is augmented, not replaced with exactly {next: "c1"}. -/
theorem C2_counterexample_params_not_replaced :
    C2run.requests =
      [⟨.GET, "b/e", [("limit", .str "100"), ("next", .str "c1")], [], none, none⟩] ∧
    [("limit", Json.str "100"), ("next", Json.str "c1")] ≠ [("next", Json.str "c1")] :=
  ⟨rfl, by simp⟩

/-- The scenario refuting C3: a PUT whose response is 201 Created. -/
def C3putRun : RunOutput :=
  put_request_basic_auth ⟨201, "created", .obj []⟩ (fun _ => ⟨200, "", .null⟩) 10
    "b" "e" "u" "p" .null []

/-- C3 fails on the code in two ways: (i) a 201 response to a PUT — a success
status for write verbs per the claim — is nevertheless rejected by
`handle_pagination`, which accepts only 200; (ii) the raised error message
embeds only the response body text, not the status code: two responses with
equal text but different statuses (404 vs 500) produce identical errors. -/
theorem C3_counterexample_status_not_carried :
    C3putRun.out.result = .error "Error retrieving data from b/e. Error: created" ∧
    handle_pagination (fun _ => ⟨200, "", .null⟩) 10 ⟨404, "nf", .null⟩
        "b" "e" none [] none =
      handle_pagination (fun _ => ⟨200, "", .null⟩) 10 ⟨500, "nf", .null⟩
        "b" "e" none [] none :=
  ⟨rfl, rfl⟩

/-- C3 as amended: whenever the initial response's status is not exactly 200
— including 201/204 replies to write verbs — `handle_pagination` fails
immediately, raising an error whose message carries the raw response body
text (but not the status code), and issues no continuation request. -/
theorem C3_amended_non200_aborts (server : Nat → Response) (fuel : Nat)
    (resp : Response) (base_url endpoint : String) (auth : Option Auth)
    (headers : List (String × String)) (params : Option Dict)
    (h : resp.status ≠ 200) :
    handle_pagination server fuel resp base_url endpoint auth headers params =
      ⟨.error ("Error retrieving data from " ++ base_url ++ "/" ++ endpoint ++
          ". Error: " ++ resp.text), [], params.getD []⟩ := by
  unfold handle_pagination
  rw [if_pos h]

/-- Witness for the amended C3 at a concrete 404 response. -/
theorem C3_amended_non200_aborts_witness :
    handle_pagination (fun _ => ⟨200, "", .null⟩) 5 ⟨404, "nf", .null⟩
        "b" "e" none [] none =
      ⟨.error "Error retrieving data from b/e. Error: nf", [], []⟩ :=
  C3_amended_non200_aborts _ 5 _ "b" "e" none [] none (by decide)

/-- The scenario refuting C4: a PUT-initiated aggregation with a paginated
first page. -/
def C4putRun : RunOutput :=
  put_request_basic_auth
    ⟨200, "", .obj [("items", .arr []), ("nextCursor", .str "c1")]⟩
    (fun _ => ⟨200, "", .obj [("items", .arr [])]⟩) 10 "b" "e" "u" "p" .null []

/-- C4 fails on the code: an aggregation started by a PUT request issues its
continuation request with GET, not PUT. -/
theorem C4_counterexample_put_continuation_get :
    C4putRun.initialRequest.verb = .PUT ∧
    C4putRun.out.requests.map Request.verb = [.GET] ∧
    Verb.GET ≠ Verb.PUT :=
  ⟨rfl, rfl, fun h => nomatch h⟩

/-- Every request in the pagination loop's trace is a GET: the loop calls
`requests.get` regardless of the verb that produced the initial page. -/
theorem pagLoop_verb_get (server : Nat → Response) (base_url endpoint : String)
    (auth : Option Auth) (headers : List (String × String)) :
    ∀ fuel params jc ji n req,
      req ∈ (pagLoop server base_url endpoint auth headers fuel params jc ji n).requests →
      req.verb = .GET := by
  intro fuel
  induction fuel with
  | zero => intro params jc ji n req h; simp [pagLoop] at h
  | succ fuel ih =>
      intro params jc ji n req h
      simp only [pagLoop] at h
      repeat' split at h
      all_goals simp at h
      all_goals try (subst h; rfl)
      all_goals rcases h with h | h
      all_goals try (subst h; rfl)
      all_goals exact ih _ _ _ _ _ h

/-- C4 as amended: every continuation request is issued with HTTP GET,
whatever verb produced the initial page — PUT- and PATCH-initiated
aggregations included. -/
theorem C4_amended_continuation_always_get (server : Nat → Response) (fuel : Nat)
    (resp : Response) (base_url endpoint : String) (auth : Option Auth)
    (headers : List (String × String)) (params : Option Dict) (req : Request)
    (h : req ∈ (handle_pagination server fuel resp base_url endpoint
        auth headers params).requests) :
    req.verb = .GET := by
  unfold handle_pagination at h
  repeat' split at h
  all_goals try simp at h
  exact pagLoop_verb_get _ _ _ _ _ _ _ _ _ _ _ h

/-- Witness for the amended C4: the continuation request of a concrete
one-continuation run is a GET. -/
theorem C4_amended_continuation_always_get_witness :
    (⟨.GET, "b/e", [("next", Json.str "c1")], [], none, none⟩ : Request).verb = .GET :=
  C4_amended_continuation_always_get
    (fun _ => ⟨200, "", .obj [("items", .arr [])]⟩) 10
    ⟨200, "", .obj [("items", .arr []), ("nextCursor", .str "c1")]⟩ "b" "e" none []
    (some []) _ (List.mem_singleton.mpr rfl)

/-- C6 fails on the code: a first page whose nextCursor is the empty string
— present and non-null — yields zero continuation requests and the page is
returned as the result, because the loop tests Python truthiness and the
empty string is falsy. -/
theorem C6_counterexample_empty_cursor :
    handle_pagination (fun _ => ⟨200, "", .null⟩) 10
      ⟨200, "", .obj [("items", .arr []), ("nextCursor", .str "")]⟩
      "b" "e" none [] none =
    ⟨.ok (.obj [("items", .arr []), ("nextCursor", .str "")]), [], []⟩ := rfl

/-- The final page of the C7 scenario: it carries total=2 and no cursor. -/
def C7finalPage : Response :=
  ⟨200, "", .obj [("items", .arr [.str "b1"]), ("total", .num 2)]⟩

/-- The C7 scenario: first page has items=[a1], cursor "c1", total=1; the
single continuation response is `C7finalPage`. -/
def C7run : PagOutput :=
  handle_pagination (fun _ => C7finalPage) 10
    ⟨200, "",
      .obj [("items", .arr [.str "a1"]), ("nextCursor", .str "c1"), ("total", .num 1)]⟩
    "b" "e" none [] none

/-- C7 fails on the code: the merged result keeps the FIRST page's envelope
fields — here total=1 — while the final page carried total=2; only `items`
and `nextCursor` are updated from later pages. -/
theorem C7_counterexample_first_page_envelope :
    C7run.result = .ok (.obj [("items", .arr [.str "a1", .str "b1"]),
        ("nextCursor", .null), ("total", .num 1)]) ∧
    Json.get C7finalPage.body "total" = some (.num 2) ∧
    Json.num 1 ≠ Json.num 2 :=
  ⟨rfl, rfl, by simp⟩

/-- C10 fails on the code: with a non-empty caller params dictionary and a
present, non-null — but empty-string, hence falsy — nextCursor, the loop
never runs and the caller's dictionary is left exactly as it was. -/
theorem C10_counterexample_falsy_cursor_unchanged :
    callerParamsAfter (some [("a", .str "b")])
      (handle_pagination (fun _ => ⟨200, "", .null⟩) 10
        ⟨200, "", .obj [("items", .arr []), ("nextCursor", .str "")]⟩
        "b" "e" none [] (some [("a", .str "b")])) = some [("a", Json.str "b")] := rfl

/-- Shape of the continuation requests issued by the loop: within a loop run
whose continuation responses are `server n, server (n+1), ...`, request `i`
carries `next` equal to the cursor of the page it continues — the loop-entry
page for `i = 0`, the body of the previous continuation response otherwise —
and agrees with the loop-entry `params` on every other key. -/
theorem pagLoop_request_params (server : Nat → Response) (b e : String)
    (auth : Option Auth) (hs : List (String × String)) :
    ∀ fuel params jc ji n i req,
      (pagLoop server b e auth hs fuel params jc ji n).requests[i]? = some req →
      dictGet req.params "next" =
        (if i = 0 then dictGet jc "nextCursor"
         else some ((Json.get (server (n + i - 1)).body "nextCursor").getD .null)) ∧
      ∀ k, k ≠ "next" → dictGet req.params k = dictGet params k := by
  intro fuel
  induction fuel with
  | zero => intro params jc ji n i req h; simp [pagLoop] at h
  | succ fuel ih =>
      intro params jc ji n i req h
      cases hcur : dictGet jc "nextCursor" with
      | none => simp [pagLoop, hcur] at h
      | some cur =>
          by_cases ht : cur.truthy
          case neg => simp [pagLoop, hcur, ht] at h
          by_cases hst : (server n).status = 200
          case neg =>
              cases i with
              | zero =>
                  simp [pagLoop, hcur, ht, hst] at h
                  subst h
                  refine ⟨by simp [dictGet_dictSet], fun k hk => ?_⟩
                  simp [dictGet_dictSet, Ne.symm hk]
              | succ i => simp [pagLoop, hcur, ht, hst] at h
          cases ji with
          | arr items =>
              cases hidx : pyIndex (server n).body "items" with
              | error msg =>
                  cases i with
                  | zero =>
                      simp [pagLoop, hcur, ht, hst, hidx] at h
                      subst h
                      refine ⟨by simp [dictGet_dictSet], fun k hk => ?_⟩
                      simp [dictGet_dictSet, Ne.symm hk]
                  | succ i => simp [pagLoop, hcur, ht, hst, hidx] at h
              | ok newItems =>
                  cases newItems with
                  | arr newList =>
                      cases i with
                      | zero =>
                          simp [pagLoop, hcur, ht, hst, hidx] at h
                          subst h
                          refine ⟨by simp [dictGet_dictSet], fun k hk => ?_⟩
                          simp [dictGet_dictSet, Ne.symm hk]
                      | succ i =>
                          simp [pagLoop, hcur, ht, hst, hidx] at h
                          obtain ⟨h1, h2⟩ := ih _ _ _ _ i req h
                          refine ⟨?_, fun k hk => ?_⟩
                          · rw [if_neg (Nat.succ_ne_zero i)]
                            cases i with
                            | zero =>
                                rw [if_pos rfl] at h1
                                rw [h1]
                                simp [dictGet_dictSet]
                            | succ i =>
                                rw [if_neg (Nat.succ_ne_zero i)] at h1
                                rw [h1]
                                simp only [show n + 1 + (i + 1) - 1 = n + i + 1 by omega,
                                  show n + (i + 1 + 1) - 1 = n + i + 1 by omega]
                          · rw [h2 k hk]
                            simp [dictGet_dictSet, Ne.symm hk]
                  | null =>
                      cases i with
                      | zero =>
                          simp [pagLoop, hcur, ht, hst, hidx] at h
                          subst h
                          refine ⟨by simp [dictGet_dictSet], fun k hk => ?_⟩
                          simp [dictGet_dictSet, Ne.symm hk]
                      | succ i => simp [pagLoop, hcur, ht, hst, hidx] at h
                  | bool x =>
                      cases i with
                      | zero =>
                          simp [pagLoop, hcur, ht, hst, hidx] at h
                          subst h
                          refine ⟨by simp [dictGet_dictSet], fun k hk => ?_⟩
                          simp [dictGet_dictSet, Ne.symm hk]
                      | succ i => simp [pagLoop, hcur, ht, hst, hidx] at h
                  | num x =>
                      cases i with
                      | zero =>
                          simp [pagLoop, hcur, ht, hst, hidx] at h
                          subst h
                          refine ⟨by simp [dictGet_dictSet], fun k hk => ?_⟩
                          simp [dictGet_dictSet, Ne.symm hk]
                      | succ i => simp [pagLoop, hcur, ht, hst, hidx] at h
                  | str x =>
                      cases i with
                      | zero =>
                          simp [pagLoop, hcur, ht, hst, hidx] at h
                          subst h
                          refine ⟨by simp [dictGet_dictSet], fun k hk => ?_⟩
                          simp [dictGet_dictSet, Ne.symm hk]
                      | succ i => simp [pagLoop, hcur, ht, hst, hidx] at h
                  | obj x =>
                      cases i with
                      | zero =>
                          simp [pagLoop, hcur, ht, hst, hidx] at h
                          subst h
                          refine ⟨by simp [dictGet_dictSet], fun k hk => ?_⟩
                          simp [dictGet_dictSet, Ne.symm hk]
                      | succ i => simp [pagLoop, hcur, ht, hst, hidx] at h
          | null =>
              cases i with
              | zero =>
                  simp [pagLoop, hcur, ht, hst] at h
                  subst h
                  refine ⟨by simp [dictGet_dictSet], fun k hk => ?_⟩
                  simp [dictGet_dictSet, Ne.symm hk]
              | succ i => simp [pagLoop, hcur, ht, hst] at h
          | bool x =>
              cases i with
              | zero =>
                  simp [pagLoop, hcur, ht, hst] at h
                  subst h
                  refine ⟨by simp [dictGet_dictSet], fun k hk => ?_⟩
                  simp [dictGet_dictSet, Ne.symm hk]
              | succ i => simp [pagLoop, hcur, ht, hst] at h
          | num x =>
              cases i with
              | zero =>
                  simp [pagLoop, hcur, ht, hst] at h
                  subst h
                  refine ⟨by simp [dictGet_dictSet], fun k hk => ?_⟩
                  simp [dictGet_dictSet, Ne.symm hk]
              | succ i => simp [pagLoop, hcur, ht, hst] at h
          | str x =>
              cases i with
              | zero =>
                  simp [pagLoop, hcur, ht, hst] at h
                  subst h
                  refine ⟨by simp [dictGet_dictSet], fun k hk => ?_⟩
                  simp [dictGet_dictSet, Ne.symm hk]
              | succ i => simp [pagLoop, hcur, ht, hst] at h
          | obj x =>
              cases i with
              | zero =>
                  simp [pagLoop, hcur, ht, hst] at h
                  subst h
                  refine ⟨by simp [dictGet_dictSet], fun k hk => ?_⟩
                  simp [dictGet_dictSet, Ne.symm hk]
              | succ i => simp [pagLoop, hcur, ht, hst] at h

/-- A run that is not settled before the loop has a canonical form: the
initial response was a 200 whose body is an object with an `items` key, and
the whole output is a `pagLoop` run seeded with that object's fields.  Every
other run issues no continuation request at all. -/
theorem handle_pagination_loop_form (server : Nat → Response) (fuel : Nat)
    (resp : Response) (b e : String) (auth : Option Auth)
    (hs : List (String × String)) (params : Option Dict) :
    ((handle_pagination server fuel resp b e auth hs params).requests = [] ∧
      ∀ r, (handle_pagination server fuel resp b e auth hs params).result = .ok r →
        r = resp.body) ∨
    (resp.status = 200 ∧ ∃ jc ji, resp.body = .obj jc ∧ dictGet jc "items" = some ji ∧
      handle_pagination server fuel resp b e auth hs params =
        pagLoop server b e auth hs fuel (params.getD []) jc ji 0) := by
  unfold handle_pagination
  by_cases hst : resp.status = 200
  case neg =>
      left
      constructor
      · simp [hst]
      · intro r hr; simp [hst] at hr
  cases hb : resp.body with
  | obj jc =>
      cases hg : dictGet jc "items" with
      | none =>
          left
          constructor
          · simp [hst, hb, pyContains, hg]
          · intro r hr
            simp [hst, hb, pyContains, hg] at hr
            rw [hr]
      | some ji =>
          right
          refine ⟨hst, jc, ji, rfl, hg, ?_⟩
          simp [hst, hb, pyContains, pyIndex, hg]
  | null =>
      left
      constructor
      · simp [hst, hb, pyContains]
      · intro r hr; simp [hst, hb, pyContains] at hr
  | bool x =>
      left
      constructor
      · simp [hst, hb, pyContains]
      · intro r hr; simp [hst, hb, pyContains] at hr
  | num x =>
      left
      constructor
      · simp [hst, hb, pyContains]
      · intro r hr; simp [hst, hb, pyContains] at hr
  | str x =>
      left
      cases hdec : decide ("items".data <:+: x.data)
      · constructor
        · simp [hst, hb, pyContains, hdec]
        · intro r hr
          simp [hst, hb, pyContains, hdec] at hr
          rw [hr]
      · constructor
        · simp [hst, hb, pyContains, hdec]
        · intro r hr; simp [hst, hb, pyContains, hdec] at hr
  | arr xs =>
      left
      cases hmem : xs.contains (Json.str "items")
      · constructor
        · simp [hst, hb, pyContains, hmem]
        · intro r hr
          simp [hst, hb, pyContains, hmem] at hr
          rw [hr]
      · constructor
        · simp [hst, hb, pyContains, hmem]
        · intro r hr; simp [hst, hb, pyContains, hmem] at hr

/-- C2 as amended: a continuation request re-sends the caller's original
parameters augmented — not replaced — with `next`: request `i` agrees with
the original params on every key other than "next", and its "next" value is
the literal nextCursor of the immediately preceding page (the initial body
for i = 0, the body of continuation response i-1 afterwards); under the
API-key scheme the key travels in a header, which is re-sent unchanged. -/
theorem C2_amended_params_augmented (server : Nat → Response) (fuel : Nat)
    (resp : Response) (base_url endpoint : String) (auth : Option Auth)
    (headers : List (String × String)) (params : Option Dict) (i : Nat) (req : Request)
    (h : (handle_pagination server fuel resp base_url endpoint auth headers
        params).requests[i]? = some req) :
    dictGet req.params "next" =
      (if i = 0 then Json.get resp.body "nextCursor"
       else some ((Json.get (server (i - 1)).body "nextCursor").getD .null)) ∧
    ∀ k, k ≠ "next" → dictGet req.params k = dictGet (params.getD []) k := by
  rcases handle_pagination_loop_form server fuel resp base_url endpoint auth headers
      params with ⟨hform, _⟩ | ⟨hst, jc, ji, hb, hg, hform⟩
  · rw [hform] at h; simp at h
  · rw [hform] at h
    obtain ⟨h1, h2⟩ := pagLoop_request_params server base_url endpoint auth headers
      fuel (params.getD []) jc ji 0 i req h
    refine ⟨?_, h2⟩
    rw [h1, hb]
    cases i with
    | zero => simp [Json.get]
    | succ i => simp [Json.get]

/-- Witness for the amended C2: in the `C2run` scenario the continuation
request retains the caller's `limit` parameter and carries the first page's
cursor in `next`. -/
theorem C2_amended_params_augmented_witness :
    dictGet [("limit", Json.str "100"), ("next", Json.str "c1")] "limit" =
      dictGet [("limit", Json.str "100")] "limit" ∧
    dictGet [("limit", Json.str "100"), ("next", Json.str "c1")] "next" =
      some (Json.str "c1") := by
  have h := C2_amended_params_augmented
    (fun _ => ⟨200, "", .obj [("items", .arr [])]⟩) 10
    ⟨200, "", .obj [("items", .arr []), ("nextCursor", .str "c1")]⟩
    "b" "e" none [] (some [("limit", .str "100")]) 0
    ⟨.GET, "b/e", [("limit", .str "100"), ("next", .str "c1")], [], none, none⟩ rfl
  exact ⟨h.2 "limit" (by simp), by simpa using h.1⟩

/-- All-or-nothing abort: if continuation response `j` is a non-200, a loop
run starting at request index `n ≤ j` issues at most `j + 1 - n` requests,
returns ok only if it stopped before consulting response `j`, and ends in a
raised error whenever it did reach it. -/
theorem pagLoop_abort (server : Nat → Response) (b e : String)
    (auth : Option Auth) (hs : List (String × String)) :
    ∀ fuel params jc ji n j, n ≤ j → (server j).status ≠ 200 →
      (pagLoop server b e auth hs fuel params jc ji n).requests.length + n ≤ j + 1 ∧
      (∀ r, (pagLoop server b e auth hs fuel params jc ji n).result = .ok r →
        (pagLoop server b e auth hs fuel params jc ji n).requests.length + n ≤ j) ∧
      ((pagLoop server b e auth hs fuel params jc ji n).requests.length + n = j + 1 →
        ∃ msg, (pagLoop server b e auth hs fuel params jc ji n).result = .error msg) := by
  intro fuel
  induction fuel with
  | zero =>
      intro params jc ji n j hnj hj
      refine ⟨?_, ?_, ?_⟩
      · simp [pagLoop]; omega
      · intro r hr; simp [pagLoop] at hr
      · intro hlen; simp [pagLoop] at hlen; exfalso; omega
  | succ fuel ih =>
      intro params jc ji n j hnj hj
      cases hcur : dictGet jc "nextCursor" with
      | none =>
          refine ⟨?_, ?_, ?_⟩
          · simp [pagLoop, hcur]; omega
          · intro r hr; simp [pagLoop, hcur]; omega
          · intro hlen; simp [pagLoop, hcur] at hlen; exfalso; omega
      | some cur =>
          by_cases ht : cur.truthy
          case neg =>
              refine ⟨?_, ?_, ?_⟩
              · simp [pagLoop, hcur, ht]; omega
              · intro r hr; simp [pagLoop, hcur, ht]; omega
              · intro hlen; simp [pagLoop, hcur, ht] at hlen; exfalso; omega
          by_cases hsn : (server n).status = 200
          case neg =>
              refine ⟨?_, ?_, ?_⟩
              · simp [pagLoop, hcur, ht, hsn]; omega
              · intro r hr; simp [pagLoop, hcur, ht, hsn] at hr
              · intro hlen
                exact ⟨"Error retrieving data from " ++ (b ++ "/" ++ e) ++
                  ". Error: " ++ (server n).text, by simp [pagLoop, hcur, ht, hsn]⟩
          have hne : n ≠ j := fun hh => hj (hh ▸ hsn)
          cases ji with
          | arr items =>
              cases hidx : pyIndex (server n).body "items" with
              | error msg =>
                  refine ⟨?_, ?_, ?_⟩
                  · simp [pagLoop, hcur, ht, hsn, hidx]; omega
                  · intro r hr; simp [pagLoop, hcur, ht, hsn, hidx] at hr
                  · intro hlen; simp [pagLoop, hcur, ht, hsn, hidx] at hlen; exfalso; omega
              | ok newItems =>
                  cases newItems with
                  | arr newList =>
                      obtain ⟨g1, g2, g3⟩ := ih (dictSet params "next" cur)
                        (dictSet (dictSet jc "items" (Json.arr (items ++ newList)))
                          "nextCursor" ((Json.get (server n).body "nextCursor").getD .null))
                        (Json.arr (items ++ newList)) (n + 1) j (by omega) hj
                      refine ⟨?_, ?_, ?_⟩
                      · simp only [pagLoop, hcur, ht, hsn]
                        simp [hidx]
                        omega
                      · intro r hr
                        simp only [pagLoop, hcur, ht, hsn] at hr ⊢
                        simp [hidx] at hr ⊢
                        have := g2 r hr
                        omega
                      · intro hlen
                        simp only [pagLoop, hcur, ht, hsn] at hlen ⊢
                        simp [hidx] at hlen ⊢
                        exact g3 (by omega)
                  | null =>
                      refine ⟨?_, ?_, ?_⟩
                      · simp [pagLoop, hcur, ht, hsn, hidx]; omega
                      · intro r hr; simp [pagLoop, hcur, ht, hsn, hidx] at hr
                      · intro hlen; simp [pagLoop, hcur, ht, hsn, hidx] at hlen; exfalso; omega
                  | bool x =>
                      refine ⟨?_, ?_, ?_⟩
                      · simp [pagLoop, hcur, ht, hsn, hidx]; omega
                      · intro r hr; simp [pagLoop, hcur, ht, hsn, hidx] at hr
                      · intro hlen; simp [pagLoop, hcur, ht, hsn, hidx] at hlen; exfalso; omega
                  | num x =>
                      refine ⟨?_, ?_, ?_⟩
                      · simp [pagLoop, hcur, ht, hsn, hidx]; omega
                      · intro r hr; simp [pagLoop, hcur, ht, hsn, hidx] at hr
                      · intro hlen; simp [pagLoop, hcur, ht, hsn, hidx] at hlen; exfalso; omega
                  | str x =>
                      refine ⟨?_, ?_, ?_⟩
                      · simp [pagLoop, hcur, ht, hsn, hidx]; omega
                      · intro r hr; simp [pagLoop, hcur, ht, hsn, hidx] at hr
                      · intro hlen; simp [pagLoop, hcur, ht, hsn, hidx] at hlen; exfalso; omega
                  | obj x =>
                      refine ⟨?_, ?_, ?_⟩
                      · simp [pagLoop, hcur, ht, hsn, hidx]; omega
                      · intro r hr; simp [pagLoop, hcur, ht, hsn, hidx] at hr
                      · intro hlen; simp [pagLoop, hcur, ht, hsn, hidx] at hlen; exfalso; omega
          | null =>
              refine ⟨?_, ?_, ?_⟩
              · simp [pagLoop, hcur, ht, hsn]; omega
              · intro r hr; simp [pagLoop, hcur, ht, hsn] at hr
              · intro hlen; simp [pagLoop, hcur, ht, hsn] at hlen; exfalso; omega
          | bool x =>
              refine ⟨?_, ?_, ?_⟩
              · simp [pagLoop, hcur, ht, hsn]; omega
              · intro r hr; simp [pagLoop, hcur, ht, hsn] at hr
              · intro hlen; simp [pagLoop, hcur, ht, hsn] at hlen; exfalso; omega
          | num x =>
              refine ⟨?_, ?_, ?_⟩
              · simp [pagLoop, hcur, ht, hsn]; omega
              · intro r hr; simp [pagLoop, hcur, ht, hsn] at hr
              · intro hlen; simp [pagLoop, hcur, ht, hsn] at hlen; exfalso; omega
          | str x =>
              refine ⟨?_, ?_, ?_⟩
              · simp [pagLoop, hcur, ht, hsn]; omega
              · intro r hr; simp [pagLoop, hcur, ht, hsn] at hr
              · intro hlen; simp [pagLoop, hcur, ht, hsn] at hlen; exfalso; omega
          | obj x =>
              refine ⟨?_, ?_, ?_⟩
              · simp [pagLoop, hcur, ht, hsn]; omega
              · intro r hr; simp [pagLoop, hcur, ht, hsn] at hr
              · intro hlen; simp [pagLoop, hcur, ht, hsn] at hlen; exfalso; omega

/-- C5: if continuation response `j` has a non-success status, the
aggregation issues no request beyond request `j` (at most j+1 requests in
all), never returns a success value once it has consulted that response —
accumulated items are not exposed — and ends in a raised error whenever it
did reach it. -/
theorem C5_continuation_failure_aborts (server : Nat → Response) (fuel : Nat)
    (resp : Response) (base_url endpoint : String) (auth : Option Auth)
    (headers : List (String × String)) (params : Option Dict) (j : Nat)
    (hj : (server j).status ≠ 200) :
    (handle_pagination server fuel resp base_url endpoint auth headers
        params).requests.length ≤ j + 1 ∧
    (∀ r, (handle_pagination server fuel resp base_url endpoint auth headers
        params).result = .ok r →
      (handle_pagination server fuel resp base_url endpoint auth headers
        params).requests.length ≤ j) ∧
    ((handle_pagination server fuel resp base_url endpoint auth headers
        params).requests.length = j + 1 →
      ∃ msg, (handle_pagination server fuel resp base_url endpoint auth headers
        params).result = .error msg) := by
  rcases handle_pagination_loop_form server fuel resp base_url endpoint auth headers
      params with ⟨hform, _⟩ | ⟨hst, jc, ji, hb, hg, hform⟩
  · refine ⟨by simp [hform], fun r _ => by simp [hform], fun hlen => ?_⟩
    rw [hform] at hlen
    simp only [List.length_nil] at hlen
    exact absurd hlen (by omega)
  · rw [hform]
    have h := pagLoop_abort server base_url endpoint auth headers fuel
      (params.getD []) jc ji 0 j (Nat.zero_le j) hj
    simpa using h

/-- Witness for C5: with a server whose every continuation response is a 500,
the aggregation of a cursored first page issues exactly one request and
raises; it returns no success value. -/
theorem C5_continuation_failure_aborts_witness :
    (handle_pagination (fun _ => ⟨500, "boom", .null⟩) 10
      ⟨200, "", .obj [("items", .arr []), ("nextCursor", .str "c1")]⟩
      "b" "e" none [] none).requests.length ≤ 0 + 1 :=
  (C5_continuation_failure_aborts (fun _ => ⟨500, "boom", .null⟩) 10
    ⟨200, "", .obj [("items", .arr []), ("nextCursor", .str "c1")]⟩
    "b" "e" none [] none 0 (by decide)).1

/-- Getting a key from an object value is dictionary lookup. -/
theorem Json.get_obj (fs : Dict) (k : String) :
    Json.get (.obj fs) k = dictGet fs k := rfl

/-- Successful loop runs: the returned object agrees with the loop-entry
object on every key other than `items` and `nextCursor`; a run with no
request returns the entry object itself, and a run with requests ends with
`nextCursor` set to the last fetched page's cursor (null when absent). -/
theorem pagLoop_ok (server : Nat → Response) (b e : String)
    (auth : Option Auth) (hs : List (String × String)) :
    ∀ fuel params jc ji n r,
      (pagLoop server b e auth hs fuel params jc ji n).result = .ok r →
      (∀ k, k ≠ "items" → k ≠ "nextCursor" → Json.get r k = dictGet jc k) ∧
      ((pagLoop server b e auth hs fuel params jc ji n).requests = [] →
        r = .obj jc) ∧
      ((pagLoop server b e auth hs fuel params jc ji n).requests ≠ [] →
        Json.get r "nextCursor" =
          some ((Json.get (server (n + (pagLoop server b e auth hs fuel params jc
            ji n).requests.length - 1)).body "nextCursor").getD .null)) := by
  intro fuel
  induction fuel with
  | zero => intro params jc ji n r hr; simp [pagLoop] at hr
  | succ fuel ih =>
      intro params jc ji n r hr
      cases hcur : dictGet jc "nextCursor" with
      | none =>
          simp [pagLoop, hcur] at hr
          subst hr
          refine ⟨fun k h1 h2 => by simp [Json.get], fun _ => rfl, fun hne => ?_⟩
          simp [pagLoop, hcur] at hne
      | some cur =>
          by_cases ht : cur.truthy
          case neg =>
              simp [pagLoop, hcur, ht] at hr
              subst hr
              refine ⟨fun k h1 h2 => by simp [Json.get], fun _ => rfl, fun hne => ?_⟩
              simp [pagLoop, hcur, ht] at hne
          by_cases hsn : (server n).status = 200
          case neg => simp [pagLoop, hcur, ht, hsn] at hr
          cases ji with
          | arr items =>
              cases hidx : pyIndex (server n).body "items" with
              | error msg => simp [pagLoop, hcur, ht, hsn, hidx] at hr
              | ok newItems =>
                  cases newItems with
                  | arr newList =>
                      simp only [pagLoop, hcur, ht, hsn] at hr
                      simp [hidx] at hr
                      obtain ⟨k1, k2, k3⟩ := ih (dictSet params "next" cur)
                        (dictSet (dictSet jc "items" (Json.arr (items ++ newList)))
                          "nextCursor" ((Json.get (server n).body "nextCursor").getD .null))
                        (Json.arr (items ++ newList)) (n + 1) r hr
                      refine ⟨fun k h1 h2 => ?_, fun h0 => ?_, fun _ => ?_⟩
                      · rw [k1 k h1 h2]
                        simp [dictGet_dictSet, Ne.symm h1, Ne.symm h2]
                      · simp [pagLoop, hcur, ht, hsn, hidx] at h0
                      · cases hrest : (pagLoop server b e auth hs fuel
                            (dictSet params "next" cur)
                            (dictSet (dictSet jc "items" (Json.arr (items ++ newList)))
                              "nextCursor" ((Json.get (server n).body
                                "nextCursor").getD .null))
                            (Json.arr (items ++ newList)) (n + 1)).requests with
                        | nil =>
                            have hrq := k2 hrest
                            subst hrq
                            simp only [pagLoop, hcur, ht, hsn]
                            simp [hidx, hrest, Json.get_obj, dictGet_dictSet]
                        | cons q qs =>
                            have hcur2 := k3 (by rw [hrest]; simp)
                            simp only [pagLoop, hcur, ht, hsn]
                            simp [hidx, hrest]
                            rw [hcur2, hrest]
                            simp only [List.length_cons]
                            have harith : n + 1 + (qs.length + 1) - 1 = n + (qs.length + 1) := by
                              omega
                            rw [harith]
                  | null => simp [pagLoop, hcur, ht, hsn, hidx] at hr
                  | bool x => simp [pagLoop, hcur, ht, hsn, hidx] at hr
                  | num x => simp [pagLoop, hcur, ht, hsn, hidx] at hr
                  | str x => simp [pagLoop, hcur, ht, hsn, hidx] at hr
                  | obj x => simp [pagLoop, hcur, ht, hsn, hidx] at hr
          | null => simp [pagLoop, hcur, ht, hsn] at hr
          | bool x => simp [pagLoop, hcur, ht, hsn] at hr
          | num x => simp [pagLoop, hcur, ht, hsn] at hr
          | str x => simp [pagLoop, hcur, ht, hsn] at hr
          | obj x => simp [pagLoop, hcur, ht, hsn] at hr

/-- C7 as amended: on success the result is the FIRST page's envelope with
`items` and `nextCursor` updated: every field other than those two is the
initial page's (not the final page's), and when at least one continuation
was fetched, `nextCursor` equals the last fetched page's cursor (null when
that page carries none). -/
theorem C7_amended_envelope_from_first_page (server : Nat → Response) (fuel : Nat)
    (resp : Response) (base_url endpoint : String) (auth : Option Auth)
    (headers : List (String × String)) (params : Option Dict) (r : Json)
    (hr : (handle_pagination server fuel resp base_url endpoint auth headers
        params).result = .ok r) :
    (∀ k, k ≠ "items" → k ≠ "nextCursor" → Json.get r k = Json.get resp.body k) ∧
    ((handle_pagination server fuel resp base_url endpoint auth headers
        params).requests ≠ [] →
      Json.get r "nextCursor" =
        some ((Json.get (server ((handle_pagination server fuel resp base_url
          endpoint auth headers params).requests.length - 1)).body
          "nextCursor").getD .null)) := by
  rcases handle_pagination_loop_form server fuel resp base_url endpoint auth headers
      params with ⟨hreq0, hok0⟩ | ⟨hst, jc, ji, hb, hg, hform⟩
  · have hrb := hok0 r hr
    subst hrb
    exact ⟨fun k h1 h2 => rfl, fun hne => absurd hreq0 hne⟩
  · rw [hform] at hr ⊢
    obtain ⟨k1, k2, k3⟩ := pagLoop_ok server base_url endpoint auth headers fuel
      (params.getD []) jc ji 0 r hr
    refine ⟨fun k h1 h2 => ?_, fun hne => ?_⟩
    · rw [k1 k h1 h2, hb, Json.get_obj]
    · have hlast := k3 hne
      rw [hlast]
      simp

/-- Witness for the amended C7: in the `C7run` scenario the merged result's
`total` field equals the first page's `total`. -/
theorem C7_amended_envelope_from_first_page_witness :
    Json.get (.obj [("items", .arr [.str "a1", .str "b1"]), ("nextCursor", .null),
        ("total", .num 1)]) "total" =
      Json.get (Json.obj [("items", .arr [.str "a1"]), ("nextCursor", .str "c1"),
        ("total", .num 1)]) "total" :=
  (C7_amended_envelope_from_first_page (fun _ => C7finalPage) 10
    ⟨200, "", .obj [("items", .arr [.str "a1"]), ("nextCursor", .str "c1"),
      ("total", .num 1)]⟩
    "b" "e" none [] none _ rfl).1 "total" (by decide) (by decide)

/-- A loop entered with positive fuel and a truthy cursor issues at least
one continuation request, whatever the server replies. -/
theorem pagLoop_requests_ne_nil (server : Nat → Response) (b e : String)
    (auth : Option Auth) (hs : List (String × String)) (fuel : Nat)
    (params jc : Dict) (ji : Json) (n : Nat) (cur : Json)
    (hcur : dictGet jc "nextCursor" = some cur) (ht : cur.truthy = true) :
    (pagLoop server b e auth hs (fuel + 1) params jc ji n).requests ≠ [] := by
  by_cases hsn : (server n).status = 200
  case neg => simp [pagLoop, hcur, ht, hsn]
  cases ji with
  | arr items =>
      cases hidx : pyIndex (server n).body "items" with
      | error msg => simp [pagLoop, hcur, ht, hsn, hidx]
      | ok newItems =>
          cases newItems with
          | arr newList => simp [pagLoop, hcur, ht, hsn, hidx]
          | null => simp [pagLoop, hcur, ht, hsn, hidx]
          | bool x => simp [pagLoop, hcur, ht, hsn, hidx]
          | num x => simp [pagLoop, hcur, ht, hsn, hidx]
          | str x => simp [pagLoop, hcur, ht, hsn, hidx]
          | obj x => simp [pagLoop, hcur, ht, hsn, hidx]
  | null => simp [pagLoop, hcur, ht, hsn]
  | bool x => simp [pagLoop, hcur, ht, hsn]
  | num x => simp [pagLoop, hcur, ht, hsn]
  | str x => simp [pagLoop, hcur, ht, hsn]
  | obj x => simp [pagLoop, hcur, ht, hsn]

/-- The loop's `params` dictionary, once holding a `next` key, holds one
forever; and any run that issued a request leaves a `next` key behind. -/
theorem pagLoop_finalParams (server : Nat → Response) (b e : String)
    (auth : Option Auth) (hs : List (String × String)) :
    ∀ fuel params jc ji n,
      ((dictGet params "next").isSome = true →
        (dictGet (pagLoop server b e auth hs fuel params jc ji n).finalParams
          "next").isSome = true) ∧
      ((pagLoop server b e auth hs fuel params jc ji n).requests ≠ [] →
        (dictGet (pagLoop server b e auth hs fuel params jc ji n).finalParams
          "next").isSome = true) := by
  intro fuel
  induction fuel with
  | zero =>
      intro params jc ji n
      exact ⟨fun h => by simpa [pagLoop] using h, fun h => by simp [pagLoop] at h⟩
  | succ fuel ih =>
      intro params jc ji n
      cases hcur : dictGet jc "nextCursor" with
      | none =>
          exact ⟨fun h => by simpa [pagLoop, hcur] using h,
            fun h => by simp [pagLoop, hcur] at h⟩
      | some cur =>
          by_cases ht : cur.truthy
          case neg =>
              exact ⟨fun h => by simpa [pagLoop, hcur, ht] using h,
                fun h => by simp [pagLoop, hcur, ht] at h⟩
          by_cases hsn : (server n).status = 200
          case neg =>
              constructor
              · intro h; simp [pagLoop, hcur, ht, hsn, dictGet_dictSet]
              · intro h; simp [pagLoop, hcur, ht, hsn, dictGet_dictSet]
          cases ji with
          | arr items =>
              cases hidx : pyIndex (server n).body "items" with
              | error msg =>
                  constructor
                  · intro h; simp [pagLoop, hcur, ht, hsn, hidx, dictGet_dictSet]
                  · intro h; simp [pagLoop, hcur, ht, hsn, hidx, dictGet_dictSet]
              | ok newItems =>
                  cases newItems with
                  | arr newList =>
                      have hrec := (ih (dictSet params "next" cur)
                        (dictSet (dictSet jc "items" (Json.arr (items ++ newList)))
                          "nextCursor" ((Json.get (server n).body "nextCursor").getD .null))
                        (Json.arr (items ++ newList)) (n + 1)).1
                        (by simp [dictGet_dictSet])
                      constructor
                      · intro h
                        simp only [pagLoop, hcur, ht, hsn]
                        simp [hidx]
                        exact hrec
                      · intro h
                        simp only [pagLoop, hcur, ht, hsn]
                        simp [hidx]
                        exact hrec
                  | null =>
                      constructor
                      · intro h; simp [pagLoop, hcur, ht, hsn, hidx, dictGet_dictSet]
                      · intro h; simp [pagLoop, hcur, ht, hsn, hidx, dictGet_dictSet]
                  | bool x =>
                      constructor
                      · intro h; simp [pagLoop, hcur, ht, hsn, hidx, dictGet_dictSet]
                      · intro h; simp [pagLoop, hcur, ht, hsn, hidx, dictGet_dictSet]
                  | num x =>
                      constructor
                      · intro h; simp [pagLoop, hcur, ht, hsn, hidx, dictGet_dictSet]
                      · intro h; simp [pagLoop, hcur, ht, hsn, hidx, dictGet_dictSet]
                  | str x =>
                      constructor
                      · intro h; simp [pagLoop, hcur, ht, hsn, hidx, dictGet_dictSet]
                      · intro h; simp [pagLoop, hcur, ht, hsn, hidx, dictGet_dictSet]
                  | obj x =>
                      constructor
                      · intro h; simp [pagLoop, hcur, ht, hsn, hidx, dictGet_dictSet]
                      · intro h; simp [pagLoop, hcur, ht, hsn, hidx, dictGet_dictSet]
          | null =>
              constructor
              · intro h; simp [pagLoop, hcur, ht, hsn, dictGet_dictSet]
              · intro h; simp [pagLoop, hcur, ht, hsn, dictGet_dictSet]
          | bool x =>
              constructor
              · intro h; simp [pagLoop, hcur, ht, hsn, dictGet_dictSet]
              · intro h; simp [pagLoop, hcur, ht, hsn, dictGet_dictSet]
          | num x =>
              constructor
              · intro h; simp [pagLoop, hcur, ht, hsn, dictGet_dictSet]
              · intro h; simp [pagLoop, hcur, ht, hsn, dictGet_dictSet]
          | str x =>
              constructor
              · intro h; simp [pagLoop, hcur, ht, hsn, dictGet_dictSet]
              · intro h; simp [pagLoop, hcur, ht, hsn, dictGet_dictSet]
          | obj x =>
              constructor
              · intro h; simp [pagLoop, hcur, ht, hsn, dictGet_dictSet]
              · intro h; simp [pagLoop, hcur, ht, hsn, dictGet_dictSet]

/-- C10 as amended: when the caller passes a non-empty params dictionary
with no `next` key and the first page's nextCursor is truthy (non-null and
non-empty), `handle_pagination` mutates the caller's dictionary in place:
after the run it contains a `next` key — set on every iteration to the
current cursor — and is no longer equal to its original value.  (A present
but falsy cursor, such as the empty string, leaves it untouched.) -/
theorem C10_amended_params_mutated (server : Nat → Response) (fuel : Nat)
    (resp : Response) (base_url endpoint : String) (auth : Option Auth)
    (headers : List (String × String)) (d jc : Dict) (ji cur : Json)
    (hd : d ≠ []) (hnext : dictGet d "next" = none)
    (h200 : resp.status = 200) (hb : resp.body = .obj jc)
    (hit : dictGet jc "items" = some ji)
    (hcur : dictGet jc "nextCursor" = some cur) (ht : cur.truthy = true)
    (hfuel : 0 < fuel) :
    ∃ p, callerParamsAfter (some d)
        (handle_pagination server fuel resp base_url endpoint auth headers (some d)) =
      some p ∧ (dictGet p "next").isSome = true ∧ p ≠ d := by
  obtain ⟨f, rfl⟩ : ∃ f, fuel = f + 1 := ⟨fuel - 1, by omega⟩
  have hform : handle_pagination server (f + 1) resp base_url endpoint auth headers
      (some d) = pagLoop server base_url endpoint auth headers (f + 1) d jc ji 0 := by
    unfold handle_pagination
    simp [h200, hb, pyContains, pyIndex, hit]
  have hne := pagLoop_requests_ne_nil server base_url endpoint auth headers f d jc ji 0
    cur hcur ht
  have hsome := (pagLoop_finalParams server base_url endpoint auth headers (f + 1)
    d jc ji 0).2 hne
  refine ⟨(pagLoop server base_url endpoint auth headers (f + 1) d jc ji 0).finalParams,
    ?_, hsome, ?_⟩
  · rw [hform]
    cases d with
    | nil => exact absurd rfl hd
    | cons kv rest => rfl
  · intro heq
    rw [heq, hnext] at hsome
    simp at hsome

/-- Witness for the amended C10: a caller dictionary {a: "b"} is visibly
mutated by a run whose first page has cursor "c1". -/
theorem C10_amended_params_mutated_witness :
    ∃ p, callerParamsAfter (some [("a", Json.str "b")])
        (handle_pagination (fun _ => ⟨200, "", .obj [("items", .arr [])]⟩) 10
          ⟨200, "", .obj [("items", .arr []), ("nextCursor", .str "c1")]⟩
          "b" "e" none [] (some [("a", .str "b")])) =
      some p ∧ (dictGet p "next").isSome = true ∧ p ≠ [("a", Json.str "b")] :=
  C10_amended_params_mutated (fun _ => ⟨200, "", .obj [("items", .arr [])]⟩) 10
    ⟨200, "", .obj [("items", .arr []), ("nextCursor", .str "c1")]⟩
    "b" "e" none [] [("a", .str "b")] [("items", .arr []), ("nextCursor", .str "c1")]
    (.arr []) (.str "c1") (by simp) rfl rfl rfl rfl rfl rfl (by omega)

/-- The body of the page the loop is looking at after `t` continuation
fetches, for a loop entered at object `jc` whose continuation responses are
`server n, server (n+1), ...`: page 0 is the entry object, page t+1 the body
of continuation response t. -/
def pageAt (server : Nat → Response) (n : Nat) (jc : Dict) : Nat → Json
  | 0 => .obj jc
  | t + 1 => (server (n + t)).body

/-- A loop whose entry cursor is falsy (absent, null, empty string, zero or
false) issues no request at all. -/
theorem pagLoop_falsy_requests (server : Nat → Response) (b e : String)
    (auth : Option Auth) (hs : List (String × String)) (fuel : Nat)
    (params jc : Dict) (ji : Json) (n : Nat)
    (h : ((dictGet jc "nextCursor").getD .null).truthy = false) :
    (pagLoop server b e auth hs fuel params jc ji n).requests = [] := by
  cases fuel with
  | zero => simp [pagLoop]
  | succ f =>
      cases hcur : dictGet jc "nextCursor" with
      | none => simp [pagLoop, hcur]
      | some cur =>
          rw [hcur] at h
          simp only [Option.getD_some] at h
          simp [pagLoop, hcur, h]

/-- A 200 initial response whose body is an object with an `items` key
always hands over to the loop, seeded with the object's fields. -/
theorem handle_pagination_items_form (server : Nat → Response) (fuel : Nat)
    (resp : Response) (b e : String) (auth : Option Auth)
    (hs : List (String × String)) (params : Option Dict) (jc : Dict) (ji : Json)
    (h200 : resp.status = 200) (hb : resp.body = .obj jc)
    (hit : dictGet jc "items" = some ji) :
    handle_pagination server fuel resp b e auth hs params =
      pagLoop server b e auth hs fuel (params.getD []) jc ji 0 := by
  unfold handle_pagination
  simp [h200, hb, pyContains, pyIndex, hit]

/-- The page every response of the non-terminating scenario carries: an
empty items list and the constant truthy cursor "c". -/
def divPage : Json := .obj [("items", .arr []), ("nextCursor", .str "c")]

/-- A server that answers every continuation request with `divPage`. -/
def divServer : Nat → Response := fun _ => ⟨200, "", divPage⟩

/-- An initial 200 response carrying `divPage`. -/
def divResp : Response := ⟨200, "", divPage⟩

/-- Against `divServer` the loop never terminates: it spends all its fuel,
issuing exactly one continuation request per unit of fuel. -/
theorem pagLoop_div : ∀ fuel (params : Dict) (n : Nat),
    (pagLoop divServer "b" "e" none [] fuel params
      [("items", Json.arr []), ("nextCursor", Json.str "c")] (Json.arr []) n).result
      = .outOfFuel ∧
    (pagLoop divServer "b" "e" none [] fuel params
      [("items", Json.arr []), ("nextCursor", Json.str "c")] (Json.arr [])
      n).requests.length = fuel := by
  intro fuel
  induction fuel with
  | zero => intro params n; simp [pagLoop]
  | succ f ih =>
      intro params n
      have h := ih (dictSet params "next" (Json.str "c")) (n + 1)
      have hstep : pagLoop divServer "b" "e" none [] (f + 1) params
          [("items", Json.arr []), ("nextCursor", Json.str "c")] (Json.arr []) n =
        ⟨(pagLoop divServer "b" "e" none [] f (dictSet params "next" (Json.str "c"))
            [("items", Json.arr []), ("nextCursor", Json.str "c")] (Json.arr [])
            (n + 1)).result,
          ⟨.GET, "b" ++ "/" ++ "e", dictSet params "next" (Json.str "c"), [], none,
            none⟩ ::
            (pagLoop divServer "b" "e" none [] f (dictSet params "next" (Json.str "c"))
              [("items", Json.arr []), ("nextCursor", Json.str "c")] (Json.arr [])
              (n + 1)).requests,
          (pagLoop divServer "b" "e" none [] f (dictSet params "next" (Json.str "c"))
            [("items", Json.arr []), ("nextCursor", Json.str "c")] (Json.arr [])
            (n + 1)).finalParams⟩ := rfl
      rw [hstep]
      exact ⟨h.1, by simp [h.2]⟩

/-- Termination of the loop on a well-behaved page chain: if the first `m`
pages seen by the loop carry truthy cursors, the corresponding `m`
continuation responses are 200s whose bodies are objects with array items,
and the cursor of page `m` is falsy, then — given fuel for m+1 iterations —
the loop issues exactly `m` requests and returns ok. -/
theorem pagLoop_terminates (server : Nat → Response) (b e : String)
    (auth : Option Auth) (hs : List (String × String)) :
    ∀ m fuel params jc it n, m + 1 ≤ fuel →
      (∀ t, t < m → (server (n + t)).status = 200) →
      (∀ t, t < m → ∃ fs l, (server (n + t)).body = .obj fs ∧
        dictGet fs "items" = some (Json.arr l)) →
      (∀ t, t < m →
        ((Json.get (pageAt server n jc t) "nextCursor").getD .null).truthy = true) →
      ((Json.get (pageAt server n jc m) "nextCursor").getD .null).truthy = false →
      (pagLoop server b e auth hs fuel params jc (.arr it) n).requests.length = m ∧
      ∃ r, (pagLoop server b e auth hs fuel params jc (.arr it) n).result = .ok r := by
  intro m
  induction m with
  | zero =>
      intro fuel params jc it n hfuel _ _ _ hlast
      obtain ⟨f, rfl⟩ : ∃ f, fuel = f + 1 := ⟨fuel - 1, by omega⟩
      simp only [pageAt, Json.get_obj] at hlast
      cases hcur : dictGet jc "nextCursor" with
      | none => exact ⟨by simp [pagLoop, hcur], Json.obj jc, by simp [pagLoop, hcur]⟩
      | some cur =>
          rw [hcur] at hlast
          simp only [Option.getD_some] at hlast
          exact ⟨by simp [pagLoop, hcur, hlast], Json.obj jc,
            by simp [pagLoop, hcur, hlast]⟩
  | succ m ihm =>
      intro fuel params jc it n hfuel hstat hgood htruthy hlast
      obtain ⟨f, rfl⟩ : ∃ f, fuel = f + 1 := ⟨fuel - 1, by omega⟩
      have h0 := htruthy 0 (by omega)
      simp only [pageAt, Json.get_obj] at h0
      cases hcur : dictGet jc "nextCursor" with
      | none => rw [hcur] at h0; simp [Json.truthy] at h0
      | some cur =>
          rw [hcur] at h0
          simp only [Option.getD_some] at h0
          have hs0 : (server n).status = 200 := by
            have hh := hstat 0 (by omega)
            simpa using hh
          obtain ⟨fs, l, hbody, hitems⟩ := hgood 0 (by omega)
          rw [show n + 0 = n from rfl] at hbody
          have hidx : pyIndex (server n).body "items" = .ok (Json.arr l) := by
            rw [hbody]; simp [pyIndex, hitems]
          have hstat2 : ∀ t, t < m → (server (n + 1 + t)).status = 200 := by
            intro t htm
            have hh := hstat (t + 1) (by omega)
            rwa [show n + (t + 1) = n + 1 + t by omega] at hh
          have hgood2 : ∀ t, t < m → ∃ fs2 l2, (server (n + 1 + t)).body = .obj fs2 ∧
              dictGet fs2 "items" = some (Json.arr l2) := by
            intro t htm
            have hh := hgood (t + 1) (by omega)
            rwa [show n + (t + 1) = n + 1 + t by omega] at hh
          have hcurjc2 : (Json.get (pageAt server (n + 1)
              (dictSet (dictSet jc "items" (Json.arr (it ++ l))) "nextCursor"
                ((Json.get (server n).body "nextCursor").getD .null)) 0)
              "nextCursor").getD .null
              = (Json.get (server n).body "nextCursor").getD .null := by
            simp [pageAt, Json.get_obj, dictGet_dictSet]
          have htruthy2 : ∀ t, t < m →
              ((Json.get (pageAt server (n + 1)
                (dictSet (dictSet jc "items" (Json.arr (it ++ l))) "nextCursor"
                  ((Json.get (server n).body "nextCursor").getD .null)) t)
                "nextCursor").getD .null).truthy = true := by
            intro t htm
            cases t with
            | zero =>
                rw [hcurjc2]
                have hh := htruthy 1 (by omega)
                simpa [pageAt] using hh
            | succ t =>
                have hh := htruthy (t + 2) (by omega)
                simp only [pageAt] at hh ⊢
                rwa [show n + (t + 1) = n + 1 + t by omega] at hh
          have hlast2 : ((Json.get (pageAt server (n + 1)
              (dictSet (dictSet jc "items" (Json.arr (it ++ l))) "nextCursor"
                ((Json.get (server n).body "nextCursor").getD .null)) m)
              "nextCursor").getD .null).truthy = false := by
            cases m with
            | zero =>
                rw [hcurjc2]
                simpa [pageAt] using hlast
            | succ m =>
                have hh := hlast
                simp only [pageAt] at hh ⊢
                rwa [show n + (m + 1) = n + 1 + m by omega] at hh
          obtain ⟨hlen, r, hok⟩ := ihm f (dictSet params "next" cur)
            (dictSet (dictSet jc "items" (Json.arr (it ++ l))) "nextCursor"
              ((Json.get (server n).body "nextCursor").getD .null))
            (it ++ l) (n + 1) (by omega) hstat2 hgood2 htruthy2 hlast2
          constructor
          · simp only [pagLoop, hcur, h0, hs0]
            simp [hidx, hlen]
          · refine ⟨r, ?_⟩
            simp only [pagLoop, hcur, h0, hs0]
            simp [hidx, hok]

/-- C6 as amended: the pagination loop issues a continuation request iff the
current page's nextCursor is truthy in the Python sense — present, non-null
AND non-empty (an empty-string or otherwise falsy cursor stops the loop); a
first page with an absent/null/falsy cursor triggers zero continuation
requests; a server that only ever returns the truthy cursor "c" keeps the
loop running forever (one request per unit of fuel, never completing); and a
page sequence whose first m seen pages have truthy cursors, whose m
continuation responses are 200 object pages with array items, and whose page
m has a falsy cursor, terminates with ok after exactly m continuation
requests — i.e. after fetching exactly pages 1..m+1. -/
theorem C6_amended_truthy_cursor_loop :
    (∀ (server : Nat → Response) (fuel : Nat) (resp : Response) (b e : String)
        (auth : Option Auth) (hs : List (String × String)) (params : Option Dict)
        (jc : Dict) (ji : Json),
      resp.status = 200 → resp.body = .obj jc → dictGet jc "items" = some ji →
      ((dictGet jc "nextCursor").getD .null).truthy = false →
      (handle_pagination server fuel resp b e auth hs params).requests = []) ∧
    (∀ (server : Nat → Response) (fuel : Nat) (resp : Response) (b e : String)
        (auth : Option Auth) (hs : List (String × String)) (params : Option Dict)
        (jc : Dict) (ji cur : Json),
      resp.status = 200 → resp.body = .obj jc → dictGet jc "items" = some ji →
      dictGet jc "nextCursor" = some cur → cur.truthy = true → 0 < fuel →
      (handle_pagination server fuel resp b e auth hs params).requests ≠ []) ∧
    (∀ fuel : Nat,
      (handle_pagination divServer fuel divResp "b" "e" none [] none).result =
        .outOfFuel ∧
      (handle_pagination divServer fuel divResp "b" "e" none []
        none).requests.length = fuel) ∧
    (∀ (server : Nat → Response) (fuel : Nat) (resp : Response) (b e : String)
        (auth : Option Auth) (hs : List (String × String)) (params : Option Dict)
        (jc : Dict) (it : List Json) (m : Nat),
      resp.status = 200 → resp.body = .obj jc →
      dictGet jc "items" = some (Json.arr it) → m + 1 ≤ fuel →
      (∀ t, t < m → (server t).status = 200) →
      (∀ t, t < m → ∃ fs l, (server t).body = .obj fs ∧
        dictGet fs "items" = some (Json.arr l)) →
      (∀ t, t < m →
        ((Json.get (pageAt server 0 jc t) "nextCursor").getD .null).truthy = true) →
      ((Json.get (pageAt server 0 jc m) "nextCursor").getD .null).truthy = false →
      (handle_pagination server fuel resp b e auth hs params).requests.length = m ∧
      ∃ r, (handle_pagination server fuel resp b e auth hs params).result = .ok r) := by
  refine ⟨?_, ?_, ?_, ?_⟩
  · intro server fuel resp b e auth hs params jc ji h200 hb hit hcur
    rw [handle_pagination_items_form server fuel resp b e auth hs params jc ji
      h200 hb hit]
    exact pagLoop_falsy_requests server b e auth hs fuel (params.getD []) jc ji 0 hcur
  · intro server fuel resp b e auth hs params jc ji cur h200 hb hit hcur ht hfuel
    rw [handle_pagination_items_form server fuel resp b e auth hs params jc ji
      h200 hb hit]
    obtain ⟨f, rfl⟩ : ∃ f, fuel = f + 1 := ⟨fuel - 1, by omega⟩
    exact pagLoop_requests_ne_nil server b e auth hs f (params.getD []) jc ji 0
      cur hcur ht
  · intro fuel
    have hform := handle_pagination_items_form divServer fuel divResp "b" "e"
      none [] none [("items", Json.arr []), ("nextCursor", Json.str "c")]
      (Json.arr []) rfl rfl rfl
    rw [hform]
    exact pagLoop_div fuel [] 0
  · intro server fuel resp b e auth hs params jc it m h200 hb hit hfuel hstat
      hgood htruthy hlast
    rw [handle_pagination_items_form server fuel resp b e auth hs params jc
      (Json.arr it) h200 hb hit]
    have hstat0 : ∀ t, t < m → (server (0 + t)).status = 200 := by
      intro t htm; simpa using hstat t htm
    have hgood0 : ∀ t, t < m → ∃ fs l, (server (0 + t)).body = .obj fs ∧
        dictGet fs "items" = some (Json.arr l) := by
      intro t htm; simpa using hgood t htm
    exact pagLoop_terminates server b e auth hs m fuel (params.getD []) jc it 0
      hfuel hstat0 hgood0 htruthy hlast

/-- The continuation responses of the C6 witness scenario: page 2 carries
cursor "c2", page 3 carries no cursor. -/
def C6server : Nat → Response :=
  fun n => if n = 0 then ⟨200, "", .obj [("items", .arr []), ("nextCursor", .str "c2")]⟩
    else ⟨200, "", .obj [("items", .arr [])]⟩

/-- The initial response of the C6 witness scenario: cursor "c1". -/
def C6resp : Response :=
  ⟨200, "", .obj [("items", .arr []), ("nextCursor", .str "c1")]⟩

/-- Witness for the amended C6: a three-page chain whose third page has no
cursor terminates with ok after exactly two continuation requests. -/
theorem C6_amended_truthy_cursor_loop_witness :
    (handle_pagination C6server 10 C6resp "b" "e" none [] none).requests.length = 2 ∧
    ∃ r, (handle_pagination C6server 10 C6resp "b" "e" none [] none).result = .ok r :=
  C6_amended_truthy_cursor_loop.2.2.2 C6server 10 C6resp "b" "e" none [] none
    [("items", Json.arr []), ("nextCursor", Json.str "c1")] [] 2
    rfl rfl rfl (by omega)
    (fun t ht => match t, ht with
      | 0, _ => rfl
      | 1, _ => rfl
      | (t + 2), h => absurd h (by omega))
    (fun t ht => match t, ht with
      | 0, _ => ⟨[("items", Json.arr []), ("nextCursor", Json.str "c2")], [], rfl, rfl⟩
      | 1, _ => ⟨[("items", Json.arr [])], [], rfl, rfl⟩
      | (t + 2), h => absurd h (by omega))
    (fun t ht => match t, ht with
      | 0, _ => rfl
      | 1, _ => rfl
      | (t + 2), h => absurd h (by omega))
    rfl

/-- Success results of the loop do not depend on URL, auth material or
headers: two loop runs fed the same response sequence and the same state
return the same ok value (they can differ only inside error messages). -/
theorem pagLoop_ok_indep (server : Nat → Response) (b1 e1 : String)
    (a1 : Option Auth) (h1 : List (String × String)) (b2 e2 : String)
    (a2 : Option Auth) (h2 : List (String × String)) :
    ∀ fuel params jc ji n r,
      (pagLoop server b1 e1 a1 h1 fuel params jc ji n).result = .ok r ↔
      (pagLoop server b2 e2 a2 h2 fuel params jc ji n).result = .ok r := by
  intro fuel
  induction fuel with
  | zero => intro params jc ji n r; simp [pagLoop]
  | succ fuel ih =>
      intro params jc ji n r
      cases hcur : dictGet jc "nextCursor" with
      | none => simp [pagLoop, hcur]
      | some cur =>
          by_cases ht : cur.truthy
          case neg => simp [pagLoop, hcur, ht]
          by_cases hsn : (server n).status = 200
          case neg => simp [pagLoop, hcur, ht, hsn]
          cases ji with
          | arr items =>
              cases hidx : pyIndex (server n).body "items" with
              | error msg => simp [pagLoop, hcur, ht, hsn, hidx]
              | ok newItems =>
                  cases newItems with
                  | arr newList =>
                      simp only [pagLoop, hcur, ht, hsn]
                      simp [hidx]
                      exact ih _ _ _ _ r
                  | null => simp [pagLoop, hcur, ht, hsn, hidx]
                  | bool x => simp [pagLoop, hcur, ht, hsn, hidx]
                  | num x => simp [pagLoop, hcur, ht, hsn, hidx]
                  | str x => simp [pagLoop, hcur, ht, hsn, hidx]
                  | obj x => simp [pagLoop, hcur, ht, hsn, hidx]
          | null => simp [pagLoop, hcur, ht, hsn]
          | bool x => simp [pagLoop, hcur, ht, hsn]
          | num x => simp [pagLoop, hcur, ht, hsn]
          | str x => simp [pagLoop, hcur, ht, hsn]
          | obj x => simp [pagLoop, hcur, ht, hsn]

/-- Success results of `handle_pagination` do not depend on URL, auth or
headers either. -/
theorem handle_pagination_ok_indep (server : Nat → Response) (fuel : Nat)
    (resp : Response) (b1 e1 : String) (a1 : Option Auth)
    (h1 : List (String × String)) (b2 e2 : String) (a2 : Option Auth)
    (h2 : List (String × String)) (params : Option Dict) (r : Json) :
    (handle_pagination server fuel resp b1 e1 a1 h1 params).result = .ok r ↔
    (handle_pagination server fuel resp b2 e2 a2 h2 params).result = .ok r := by
  unfold handle_pagination
  by_cases hst : resp.status = 200
  case neg => simp [hst]
  cases hb : resp.body with
  | obj jc =>
      cases hg : dictGet jc "items" with
      | none => simp [hst, hb, pyContains, hg]
      | some ji =>
          simp only [hst, hb]
          simp [pyContains, pyIndex, hg]
          exact pagLoop_ok_indep server b1 e1 a1 h1 b2 e2 a2 h2 fuel
            (params.getD []) jc ji 0 r
  | null => simp [hst, hb, pyContains]
  | bool x => simp [hst, hb, pyContains]
  | num x => simp [hst, hb, pyContains]
  | str x =>
      cases hdec : decide ("items".data <:+: x.data) <;>
        simp [hst, hb, pyContains, hdec]
  | arr xs =>
      cases hmem : xs.contains (Json.str "items") <;>
        simp [hst, hb, pyContains, hmem]

/-- C9: fed identical page sequences, the Basic-Auth GET entry point and the
API-key GET entry point return exactly the same successful aggregation
result — same merged items, same order, same envelope; the two runs differ
only in authentication material (and, on failure, in the URL the error
message mentions). -/
theorem C9_auth_scheme_parity (server0 : Response) (server : Nat → Response)
    (fuel : Nat) (base_url endpoint username password api_key : String)
    (params : Dict) (r : Json) :
    (get_request_basic_auth server0 server fuel base_url endpoint username password
        params).out.result = .ok r ↔
    (get_requests_api_key server0 server fuel base_url endpoint api_key
        params).out.result = .ok r := by
  unfold get_request_basic_auth get_requests_api_key
  exact handle_pagination_ok_indep server fuel server0 base_url endpoint
    (some (Auth.basic username password)) [("Accept", "application/json")]
    (base_url ++ "/v2.0") endpoint none
    [("Accept", "application/json"), ("X-API-Key", api_key)] (some params) r

/-- Witness for C9: a concrete two-page sequence aggregates to the same ok
value through both entry points. -/
theorem C9_auth_scheme_parity_witness :
    (get_request_basic_auth
      ⟨200, "", .obj [("items", .arr [.str "x1"]), ("nextCursor", .str "c1")]⟩
      (fun _ => ⟨200, "", .obj [("items", .arr [.str "x2"])]⟩) 10
      "b" "e" "u" "p" []).out.result =
      .ok (.obj [("items", .arr [.str "x1", .str "x2"]), ("nextCursor", .null)]) :=
  (C9_auth_scheme_parity
    ⟨200, "", .obj [("items", .arr [.str "x1"]), ("nextCursor", .str "c1")]⟩
    (fun _ => ⟨200, "", .obj [("items", .arr [.str "x2"])]⟩) 10
    "b" "e" "u" "p" "key" []
    (.obj [("items", .arr [.str "x1", .str "x2"]), ("nextCursor", .null)])).mpr rfl

/-- The items list a page carries: the value of its `items` key when that is
an array, and the empty list otherwise (in a successful run every page the
loop consulted has an array `items`, so no items are lost to the default). -/
def itemsOf (j : Json) : List Json :=
  match Json.get j "items" with
  | some (Json.arr l) => l
  | _ => []

/-- Concatenation, in server-yielded order, of the items of `c` consecutive
continuation-response bodies starting at index `n`. -/
def catItems (server : Nat → Response) : Nat → Nat → List Json
  | _, 0 => []
  | n, c + 1 => itemsOf (server n).body ++ catItems server (n + 1) c

/-- A page that subscripts to an items array has that array as `itemsOf`. -/
theorem itemsOf_of_pyIndex (j : Json) (l : List Json)
    (h : pyIndex j "items" = .ok (Json.arr l)) : itemsOf j = l := by
  cases j with
  | obj fs =>
      cases hg : dictGet fs "items" with
      | none => simp [pyIndex, hg] at h
      | some v =>
          simp [pyIndex, hg] at h
          subst h
          simp [itemsOf, Json.get_obj, hg]
  | null => simp [pyIndex] at h
  | bool x => simp [pyIndex] at h
  | num x => simp [pyIndex] at h
  | str x => simp [pyIndex] at h
  | arr x => simp [pyIndex] at h

/-- Soundness of the accumulator: a successful loop run entered with items
array `it` returns an object whose `items` is `it` followed by the items of
every continuation page it fetched, in server-yielded order. -/
theorem pagLoop_items_concat (server : Nat → Response) (b e : String)
    (auth : Option Auth) (hs : List (String × String)) :
    ∀ fuel params jc it n r,
      dictGet jc "items" = some (Json.arr it) →
      (pagLoop server b e auth hs fuel params jc (.arr it) n).result = .ok r →
      Json.get r "items" =
        some (Json.arr (it ++ catItems server n
          (pagLoop server b e auth hs fuel params jc (.arr it) n).requests.length)) := by
  intro fuel
  induction fuel with
  | zero => intro params jc it n r hjc hr; simp [pagLoop] at hr
  | succ fuel ih =>
      intro params jc it n r hjc hr
      cases hcur : dictGet jc "nextCursor" with
      | none =>
          simp [pagLoop, hcur] at hr
          subst hr
          simp [pagLoop, hcur, catItems, Json.get_obj, hjc]
      | some cur =>
          by_cases ht : cur.truthy
          case neg =>
              simp [pagLoop, hcur, ht] at hr
              subst hr
              simp [pagLoop, hcur, ht, catItems, Json.get_obj, hjc]
          by_cases hsn : (server n).status = 200
          case neg => simp [pagLoop, hcur, ht, hsn] at hr
          cases hidx : pyIndex (server n).body "items" with
          | error msg => simp [pagLoop, hcur, ht, hsn, hidx] at hr
          | ok newItems =>
              cases newItems with
              | arr newList =>
                  simp only [pagLoop, hcur, ht, hsn] at hr ⊢
                  simp [hidx] at hr ⊢
                  have hjc2 : dictGet (dictSet (dictSet jc "items"
                      (Json.arr (it ++ newList))) "nextCursor"
                      ((Json.get (server n).body "nextCursor").getD .null)) "items" =
                      some (Json.arr (it ++ newList)) := by
                    simp [dictGet_dictSet]
                  have hrec := ih (dictSet params "next" cur) _ (it ++ newList) (n + 1)
                    r hjc2 hr
                  rw [hrec]
                  have hdrop : itemsOf (server n).body = newList :=
                    itemsOf_of_pyIndex _ _ hidx
                  simp [catItems, hdrop, List.append_assoc]
              | null => simp [pagLoop, hcur, ht, hsn, hidx] at hr
              | bool x => simp [pagLoop, hcur, ht, hsn, hidx] at hr
              | num x => simp [pagLoop, hcur, ht, hsn, hidx] at hr
              | str x => simp [pagLoop, hcur, ht, hsn, hidx] at hr
              | obj x => simp [pagLoop, hcur, ht, hsn, hidx] at hr

/-- C1: for every multi-page aggregation run — a 200 initial response whose
object body carries an array `items` — the successful result's `items`
field is the concatenation, in server-yielded order, of the initial page's
items followed by the items of every fetched continuation page, with no
deduplication or re-sorting; and in particular the three-page sequence
P1={items:[a,b], nextCursor:"c1"}, P2={items:[c], nextCursor:"c2"},
P3={items:[d], nextCursor:null} returns items=[a,b,c,d] and issues exactly
two continuation requests, the first carrying next="c1" and the second
next="c2", each the prior page's cursor. -/
theorem C1_multi_page_concat :
    (∀ (server : Nat → Response) (fuel : Nat) (resp : Response) (b e : String)
        (auth : Option Auth) (hs : List (String × String)) (params : Option Dict)
        (jc : Dict) (it : List Json) (r : Json),
      resp.status = 200 → resp.body = .obj jc →
      dictGet jc "items" = some (Json.arr it) →
      (handle_pagination server fuel resp b e auth hs params).result = .ok r →
      Json.get r "items" =
        some (Json.arr (it ++ catItems server 0
          (handle_pagination server fuel resp b e auth hs params).requests.length))) ∧
    (∀ a b c d : Json,
      handle_pagination
        (fun n => if n = 0 then
            ⟨200, "", .obj [("items", .arr [c]), ("nextCursor", .str "c2")]⟩
          else ⟨200, "", .obj [("items", .arr [d]), ("nextCursor", .null)]⟩)
        10 ⟨200, "", .obj [("items", .arr [a, b]), ("nextCursor", .str "c1")]⟩
        "b" "e" none [] (some []) =
      ⟨.ok (.obj [("items", .arr [a, b, c, d]), ("nextCursor", .null)]),
        [⟨.GET, "b/e", [("next", .str "c1")], [], none, none⟩,
         ⟨.GET, "b/e", [("next", .str "c2")], [], none, none⟩],
        [("next", .str "c2")]⟩) := by
  constructor
  · intro server fuel resp b e auth hs params jc it r h200 hb hit hr
    rw [handle_pagination_items_form server fuel resp b e auth hs params jc
      (Json.arr it) h200 hb hit] at hr ⊢
    exact pagLoop_items_concat server b e auth hs fuel (params.getD []) jc it 0 r
      hit hr
  · intro a b c d
    rfl

/-- The continuation responses of the C1 witness scenario. -/
def C1server : Nat → Response :=
  fun n => if n = 0 then
      ⟨200, "", .obj [("items", .arr [.str "x3"]), ("nextCursor", .str "c2")]⟩
    else ⟨200, "", .obj [("items", .arr [.str "x4"]), ("nextCursor", .null)]⟩

/-- The initial response of the C1 witness scenario. -/
def C1resp : Response :=
  ⟨200, "", .obj [("items", .arr [.str "x1", .str "x2"]), ("nextCursor", .str "c1")]⟩

/-- Witness for C1: the general concatenation theorem applied to a concrete
three-page run yields its computed items list x1..x4. -/
theorem C1_multi_page_concat_witness :
    Json.get (.obj [("items", .arr [.str "x1", .str "x2", .str "x3", .str "x4"]),
        ("nextCursor", .null)]) "items" =
      some (.arr [.str "x1", .str "x2", .str "x3", .str "x4"]) :=
  C1_multi_page_concat.1 C1server 10 C1resp "b" "e" none [] (some [])
    [("items", .arr [.str "x1", .str "x2"]), ("nextCursor", .str "c1")]
    [.str "x1", .str "x2"] _ rfl rfl rfl rfl

end Cognigy
